import Mathlib

/-!
Shallow embedding of the Interview Session & Difficulty-Adaptation Engine of
the `selfeval` repository.

The embedded code lives in:
* the storage service (source file `src/unnamed/part_001`, middle segment):
  `createInterviewSession`, `addMessageToSession`, `updateDifficultyAssessment`,
  `checkDifficultyAdjustment`, `incrementQuestionCount`, `incrementSkippedCount`,
  `getMaxTopicSkips`, `getSessionMetrics`, `endInterviewSession`;
* the HTTP routes (`src/routes/interview.js`): `POST /start`, `POST /respond`,
  `POST /end`.

Modelling conventions:
* JS numbers holding difficulty levels are modelled as `Int` (the code clamps
  with `Math.max(1, Math.min(4, ...))`, so signed arithmetic is needed).
* Wall-clock timestamps (`new Date().toISOString()`) are opaque strings passed
  in as parameters; no claim distinguishes the individual timestamps taken
  inside one turn, so each embedded operation takes a single `now` argument.
* JS objects with optional keys become structures with `Option` fields; a JS
  `Map` and a JS object used as a dictionary become association lists (which
  preserve the JS insertion-order iteration semantics of `Object.entries`).
* The external LLM call is an oracle argument of type `Option _`: `none`
  models the call throwing (`UpstreamGenerationFailure`), `some r` a parsed
  structured response.
-/

/-- A topic reference as it appears in LLM responses and message metadata:
`{id, name}` (further keys are irrelevant to the embedded operations). -/
structure Topic where
  id : String
  name : String
  deriving Repr, DecidableEq

/-- Metadata object shape that `POST /respond` *expects* to find under the
`metadata` key of a stored message (`lastInterviewerMsg?.metadata?.currentTopic?.id`). -/
structure MsgMeta where
  currentTopic : Option Topic
  deriving Repr, DecidableEq

/-- A transcript entry. `addMessageToSession` builds the stored JS object as
`{role, content, timestamp, ...metadata}` — the fourth argument's keys are
spread at top level, so the stored object carries `currentTopic`,
`assessmentOfLastAnswer`, `isProbing`, `skipped` directly and **never** has a
`metadata` key; the `metadata` field below models that (always-absent) key. -/
structure Message where
  role : String
  content : String
  timestamp : String
  currentTopic : Option Topic := none
  assessmentOfLastAnswer : Option String := none
  isProbing : Option Bool := none
  skipped : Option Bool := none
  metadata : Option MsgMeta := none
  deriving Repr, DecidableEq

/-- One entry of `difficultyTracker.adjustmentHistory`:
`{timestamp, fromLevel, toLevel, reason}`. -/
structure Adjustment where
  timestamp : String
  fromLevel : Int
  toLevel : Int
  reason : String
  deriving Repr, DecidableEq

/-- `session.difficultyTracker`. -/
structure DifficultyTracker where
  currentLevel : Int
  recentAssessments : List String
  adjustmentHistory : List Adjustment
  deriving Repr, DecidableEq

/-- `session.metrics`. `skipsPerTopic` is created lazily by
`incrementSkippedCount` (`none` models the key being absent; `some l` the JS
object with entries `l` in insertion order). -/
structure Metrics where
  questionCount : Nat
  skippedCount : Nat
  skipsPerTopic : Option (List (String × Nat)) := none
  deriving Repr, DecidableEq

/-- Persona snapshot stored on the session (fields copied verbatim at
creation; opaque to every embedded operation). -/
structure Persona where
  id : String
  name : String
  style : String
  focusAreas : List String
  evaluationWeight : String
  deriving Repr, DecidableEq

/-- A role as returned by `getRole`: it may carry a numeric `level` and/or a
`baseLevel` string; remaining fields are copied opaquely into the session. -/
structure Role where
  id : String
  name : String
  level : Option Int := none
  baseLevel : Option String := none
  type : Option String := none
  expectations : String := ""
  focusTopics : List String := []
  deriving Repr, DecidableEq

/-- The `targetRole` snapshot stored on the session by `createInterviewSession`. -/
structure RoleSnapshot where
  id : String
  name : String
  level : Int
  type : String
  expectations : String
  focusTopics : List String
  deriving Repr, DecidableEq

/-- The summary object handed to `endInterviewSession`: the parsed LLM summary
(kept opaque as `payload`) augmented by the `/end` route with persona, role,
difficulty tracker and a metrics snapshot `{questionCount, skippedCount,
duration}` (the wall-clock `duration` string is stored opaquely). -/
structure Summary where
  payload : String
  persona : Option Persona
  targetRole : Option RoleSnapshot
  difficultyTracker : DifficultyTracker
  metricsQuestionCount : Nat
  metricsSkippedCount : Nat
  metricsDuration : String
  deriving Repr, DecidableEq

/-- An interview session object as created by `createInterviewSession`.
`selectedTopics` is either the sentinel string `"random"` (or absent) or a
list of topic ids; it is stored verbatim and never read by the embedded
operations. -/
structure Session where
  id : String
  courseId : String
  courseName : String
  selectedTopics : Option (String ⊕ List String)
  topics : List Topic
  persona : Option Persona
  targetRole : Option RoleSnapshot
  difficultyTracker : DifficultyTracker
  metrics : Metrics
  startTime : String
  endTime : Option String
  messages : List Message
  summary : Option Summary
  deriving Repr, DecidableEq

/-! ## Difficulty tracking (`part_001`, storage service) -/

/-- `const validAssessments = ['excellent', 'good', 'partial', 'brief']`. -/
def validAssessments : List String := ["excellent", "good", "partial", "brief"]

/-- Result of `checkDifficultyAdjustment`: the JS function returns
`{shouldAdjust: false}` or `{shouldAdjust: true, direction, reason}`. -/
inductive AdjustDecision
  | noAdjust
  | adjust (direction : Int) (reason : String)
  deriving Repr, DecidableEq

/-- `checkDifficultyAdjustment(tracker)` (`part_001` lines 829–866).
The JS nests `if (excellentCount >= 2) { if (level < 4) return increase }` and
then falls through to the decrease check; flattening into
`if excellentCount ≥ 2 && level < 4 then increase else if ...` is equivalent. -/
def checkDifficultyAdjustment (tracker : DifficultyTracker) : AdjustDecision :=
  let recent := tracker.recentAssessments
  if recent.length < 2 then .noAdjust
  else
    let excellentCount := (recent.filter (· == "excellent")).length
    let _goodCount := (recent.filter (· == "good")).length
    let partialCount := (recent.filter (· == "partial")).length
    let briefCount := (recent.filter (· == "brief")).length
    if excellentCount ≥ 2 && tracker.currentLevel < 4 then
      .adjust 1 "Candidate showing strong performance - increasing difficulty"
    else if (briefCount ≥ 2 || briefCount + partialCount ≥ 2) && tracker.currentLevel > 1 then
      .adjust (-1) "Candidate may need support - decreasing difficulty"
    else .noAdjust

/-- The tracker part of `updateDifficultyAssessment(sessionId, assessment)`
(`part_001` lines 790–827): invalid labels are a warned no-op; a valid label
is pushed onto `recentAssessments` with `shift()` once the length exceeds 3;
then `checkDifficultyAdjustment` runs on the updated window and, on
adjustment, the level is clamped into `[1,4]`, a history record is pushed and
the window is reset to `[]`. -/
def updateTracker (tracker : DifficultyTracker) (assessment : String) (now : String) :
    DifficultyTracker :=
  if !(validAssessments.contains assessment) then tracker
  else
    let pushed := tracker.recentAssessments ++ [assessment]
    let recent := if pushed.length > 3 then pushed.tail else pushed
    let t1 : DifficultyTracker := { tracker with recentAssessments := recent }
    match checkDifficultyAdjustment t1 with
    | .noAdjust => t1
    | .adjust direction reason =>
      let newLevel := max 1 (min 4 (t1.currentLevel + direction))
      { currentLevel := newLevel
        recentAssessments := []
        adjustmentHistory := t1.adjustmentHistory ++
          [{ timestamp := now, fromLevel := t1.currentLevel, toLevel := newLevel,
             reason := reason }] }

/-- `updateDifficultyAssessment` at session granularity (the JS function looks
the session up in `activeSessions` and mutates `session.difficultyTracker` in
place). -/
def updateDifficultyAssessmentS (s : Session) (assessment : String) (now : String) : Session :=
  { s with difficultyTracker := updateTracker s.difficultyTracker assessment now }

/-- `getDifficultyContext(sessionId).currentLevel` for a live session: just the
tracker's current level (the level-name table is presentation only). -/
def getDifficultyLevelS (s : Session) : Int :=
  s.difficultyTracker.currentLevel

/-! ## Session metrics (`part_001`) -/

/-- Association-list read, `obj[key] || 0`. -/
def assocGet (l : List (String × Nat)) (k : String) : Nat :=
  match l.find? (fun p => p.1 == k) with
  | some p => p.2
  | none => 0

/-- Association-list write, `obj[key] = v` (JS objects keep insertion order:
an existing key is updated in place, a new key is appended). -/
def assocSet (l : List (String × Nat)) (k : String) (v : Nat) : List (String × Nat) :=
  match l with
  | [] => [(k, v)]
  | p :: rest => if p.1 == k then (k, v) :: rest else p :: assocSet rest k v

/-- `incrementQuestionCount(sessionId)` on a live session. -/
def incrementQuestionCountS (s : Session) : Session :=
  { s with metrics := { s.metrics with questionCount := s.metrics.questionCount + 1 } }

/-- `incrementSkippedCount(sessionId, topicId)` on a live session: ensures
`skipsPerTopic` exists, increments the global `skippedCount`, and bumps the
per-topic entry only when `topicId` is truthy. -/
def incrementSkippedCountS (s : Session) (topicId : Option String) : Session :=
  let perTopic := s.metrics.skipsPerTopic.getD []
  let perTopic1 :=
    match topicId with
    | some tid => assocSet perTopic tid (assocGet perTopic tid + 1)
    | none => perTopic
  { s with metrics :=
      { s.metrics with
        skippedCount := s.metrics.skippedCount + 1
        skipsPerTopic := some perTopic1 } }

/-- `getMaxTopicSkips(sessionId)` on a live session: scans
`Object.entries(skipsPerTopic)` keeping the strictly-largest count (first
maximum wins); returns `{maxSkips: 0, topicId: null}` when the map is absent
or empty. -/
def getMaxTopicSkipsS (s : Session) : Nat × Option String :=
  match s.metrics.skipsPerTopic with
  | none => (0, none)
  | some entries =>
    entries.foldl (fun acc p => if p.2 > acc.1 then (p.2, some p.1) else acc) (0, none)

/-! ## Transcript (`addMessageToSession`, `part_001` lines 775–787) -/

/-- `addMessageToSession(sessionId, role, content, metadata)`: pushes
`{role, content, timestamp, ...metadata}`. The caller-supplied metadata keys
are spread flat into the entry, which is received here as an already-built
`Message` with `role`/`content`/`timestamp` overwritten. -/
def addMessageToSessionS (s : Session) (entry : Message) : Session :=
  { s with messages := s.messages ++ [entry] }

/-! ## Session creation (`createInterviewSession`, `part_001` lines 713–769) -/

/-- `const levelMap = { junior: 1, mid: 2, senior: 3, lead: 4 }` lookup. -/
def levelMapLookup (b : String) : Option Int :=
  if b == "junior" then some 1
  else if b == "mid" then some 2
  else if b == "senior" then some 3
  else if b == "lead" then some 4
  else none

/-- `levelMap[role.baseLevel] || 2`, guarded by the truthiness of
`role.baseLevel` (absent or empty string falls back to the default 2; so does
an unrecognized string, via `|| 2`). -/
def levelFromBase (baseLevel : Option String) : Int :=
  match baseLevel with
  | none => 2
  | some b => if b = "" then 2 else (levelMapLookup b).getD 2

/-- The `initialLevel` computation of `createInterviewSession`:
`let initialLevel = 2; if (role) { if (role.level) initialLevel = role.level;
else if (role.baseLevel) initialLevel = levelMap[role.baseLevel] || 2; }`.
JS truthiness: a numeric `level` of `0` is falsy and falls through to the
`baseLevel` branch. -/
def initialDifficultyLevel (role : Option Role) : Int :=
  match role with
  | none => 2
  | some r =>
    match r.level with
    | some l => if l = 0 then levelFromBase r.baseLevel else l
    | none => levelFromBase r.baseLevel

/-- `createInterviewSession(courseId, courseName, selectedTopics, topics,
persona, role)`. The generated id (`int_<Date.now()>_<random>`) and the
creation timestamp are passed in as parameters. -/
def createInterviewSession (sessionId courseId courseName : String)
    (selectedTopics : Option (String ⊕ List String)) (topics : List Topic)
    (persona : Option Persona) (role : Option Role) (now : String) : Session :=
  let initialLevel := initialDifficultyLevel role
  { id := sessionId
    courseId := courseId
    courseName := courseName
    selectedTopics := selectedTopics
    topics := topics
    persona := persona
    targetRole := role.map (fun r =>
      { id := r.id
        name := r.name
        level := match r.level with
                 | some l => if l = 0 then initialLevel else l
                 | none => initialLevel
        type := match r.type with
                | some t => if t = "" then "generic" else t
                | none => "generic"
        expectations := r.expectations
        focusTopics := r.focusTopics })
    difficultyTracker :=
      { currentLevel := initialLevel
        recentAssessments := []
        adjustmentHistory := [] }
    metrics := { questionCount := 0, skippedCount := 0, skipsPerTopic := none }
    startTime := now
    endTime := none
    messages := []
    summary := none }

/-! ## Session registry (`activeSessions`, a JS `Map`) -/

/-- The process-wide registry, as an insertion-ordered association list. -/
abbrev Registry := List (String × Session)

/-- `activeSessions.get(id)`. -/
def regGet (reg : Registry) (sid : String) : Option Session :=
  (List.find? (fun p => p.1 == sid) reg).map (fun p => p.2)

/-- `activeSessions.set(id, s)` (update in place, append when new). -/
def regSet (reg : Registry) (sid : String) (s : Session) : Registry :=
  match reg with
  | [] => [(sid, s)]
  | p :: rest => if p.1 == sid then (sid, s) :: rest else p :: regSet rest sid s

/-- `activeSessions.delete(id)`. -/
def regDelete (reg : Registry) (sid : String) : Registry :=
  match reg with
  | [] => []
  | p :: rest => if p.1 == sid then rest else p :: regDelete rest sid

/-! ## `POST /respond` (`src/routes/interview.js` lines 322–418) -/

/-- `const MAX_SKIPS_BEFORE_END = 3`. -/
def MAX_SKIPS_BEFORE_END : Nat := 3

/-- The parsed JSON returned by `groq.continueInterview`. -/
structure LLMTurn where
  message : String
  currentTopic : Option Topic := none
  assessmentOfLastAnswer : Option String := none
  isProbing : Option Bool := none
  deriving Repr, DecidableEq

/-- The route's possible outcomes. `autoEnd` carries the machine-readable
fields of the auto-terminate payload (`reason`, `skippedCount`, `topicId`);
the human-readable `message` string and the `difficultyName`/`duration`
presentation fields of the `ok` payload are not modelled. -/
inductive RespondResult
  | badRequest
  | notFound
  | autoEnd (reason : String) (skippedCount : Nat) (topicId : Option String)
  | upstreamFailure
  | ok (message : String) (currentTopic : Option Topic) (assessment : Option String)
      (difficultyLevel : Int) (questionCount : Nat) (skippedCount : Nat)
  deriving Repr, DecidableEq

/-- The part of the `/respond` handler after the skip bookkeeping: append the
user message, call the LLM (a thrown error leaves all mutations performed so
far in place, since the JS mutates the live session object), then assessment
consumption, question counting and interviewer-message append, in source
order. -/
def respondContinue (s1 : Session) (message : String) (skipped : Bool)
    (llm : Option LLMTurn) (now : String) : Session × RespondResult :=
  let s2 := addMessageToSessionS s1
    { role := "user", content := message, timestamp := now, skipped := some skipped }
  match llm with
  | none => (s2, .upstreamFailure)
  | some r =>
    let assessmentTruthy :=
      match r.assessmentOfLastAnswer with
      | some a => a != ""
      | none => false
    let s3 := if assessmentTruthy && !skipped then
        updateDifficultyAssessmentS s2 (r.assessmentOfLastAnswer.getD "") now
      else s2
    let updatedLevel := getDifficultyLevelS s3
    let s4 := if r.isProbing ≠ some true then incrementQuestionCountS s3 else s3
    let s5 := addMessageToSessionS s4
      { role := "interviewer", content := r.message, timestamp := now,
        currentTopic := r.currentTopic,
        assessmentOfLastAnswer := r.assessmentOfLastAnswer,
        isProbing := r.isProbing }
    (s5, .ok r.message r.currentTopic r.assessmentOfLastAnswer updatedLevel
      s5.metrics.questionCount s5.metrics.skippedCount)

/-- The `/respond` handler on one live session (after the registry lookup).
On a skipped turn the handler resolves the current topic id by reading
`lastInterviewerMsg?.metadata?.currentTopic?.id` — the `metadata` key of the
stored message object, which `addMessageToSession` never creates — increments
the skip counters, and returns the auto-terminate payload when the maximum
per-topic skip count has reached `MAX_SKIPS_BEFORE_END`, *before* the user
message is appended. -/
def respondSession (s : Session) (message : String) (skipped : Bool)
    (llm : Option LLMTurn) (now : String) : Session × RespondResult :=
  if skipped then
    let lastInterviewerMsg := s.messages.reverse.find? (fun m => m.role == "interviewer")
    let currentTopicId :=
      ((lastInterviewerMsg.bind Message.metadata).bind MsgMeta.currentTopic).map Topic.id
    let s1 := incrementSkippedCountS s currentTopicId
    let info := getMaxTopicSkipsS s1
    if info.1 ≥ MAX_SKIPS_BEFORE_END then
      (s1, .autoEnd "topic_skip_limit" s1.metrics.skippedCount info.2)
    else
      respondContinue s1 message skipped llm now
  else
    respondContinue s message skipped llm now

/-- The full `/respond` route: the `!sessionId || !message` guard (empty
strings are falsy), the registry lookup, and the session-level turn; the JS
mutates the session object held by the `Map` in place, modelled by writing the
updated session back under its key. -/
def respondRoute (reg : Registry) (sessionId message : String) (skipped : Bool)
    (llm : Option LLMTurn) (now : String) : Registry × RespondResult :=
  if sessionId = "" ∨ message = "" then (reg, .badRequest)
  else
    match regGet reg sessionId with
    | none => (reg, .notFound)
    | some s =>
      let out := respondSession s message skipped llm now
      (regSet reg sessionId out.1, out.2)

/-! ## `POST /end` (`src/routes/interview.js` lines 421–471) and
`endInterviewSession` (`part_001` lines 971–993) -/

/-- The world state `POST /end` touches: the live-session registry plus the
durable interview store (`interviews.json`, field `sessions`). -/
structure Store where
  registry : Registry
  persistedSessions : List Session
  deriving Repr, DecidableEq

/-- `endInterviewSession(sessionId, summary)`: stamps `endTime`, sets
`summary`, replaces `session.metrics` by `summary.metrics` (an object holding
only `questionCount`, `skippedCount` and the presentation `duration`; in
particular it has no `skipsPerTopic` key), unshifts the session onto the
durable list truncated to the 50 newest, and deletes the registry entry.
Returns `none` when the id is not live. -/
def endInterviewSessionS (st : Store) (sessionId : String) (summary : Summary)
    (now : String) : Store × Option Session :=
  match regGet st.registry sessionId with
  | none => (st, none)
  | some s =>
    let s1 := { s with
      endTime := some now
      summary := some summary
      metrics :=
        { questionCount := summary.metricsQuestionCount
          skippedCount := summary.metricsSkippedCount
          skipsPerTopic := none } }
    let persisted1 := (s1 :: st.persistedSessions).take 50
    ({ registry := regDelete st.registry sessionId
       persistedSessions := persisted1 }, some s1)

/-- Outcomes of `POST /end`. -/
inductive EndResult
  | badRequest
  | notFound
  | upstreamFailure
  | ended (summary : Summary)
  deriving Repr, DecidableEq

/-- The `/end` route: guard, lookup, metrics snapshot, LLM summary call
(failure leaves the store untouched — nothing was mutated before the call),
augmentation of the summary with persona/role/tracker/metrics, then
`endInterviewSession`. `duration` is the wall-clock formatted duration taken
by `getSessionMetrics`. -/
def endRoute (st : Store) (sessionId : String) (llmSummary : Option String)
    (duration : String) (now : String) : Store × EndResult :=
  if sessionId = "" then (st, .badRequest)
  else
    match regGet st.registry sessionId with
    | none => (st, .notFound)
    | some s =>
      match llmSummary with
      | none => (st, .upstreamFailure)
      | some payload =>
        let summary : Summary :=
          { payload := payload
            persona := s.persona
            targetRole := s.targetRole
            difficultyTracker := s.difficultyTracker
            metricsQuestionCount := s.metrics.questionCount
            metricsSkippedCount := s.metrics.skippedCount
            metricsDuration := duration }
        let out := endInterviewSessionS st sessionId summary now
        (out.1, .ended summary)

/-! ## `POST /start` (`src/routes/interview.js` lines 176–319)

The eligibility gate (per-topic practice minimums, average-score minimum,
daily question limit) reads the SQL store and runs before any session
mutation; it is an external-collaborator concern and is not modelled. The
embedded part starts at `storage.createInterviewSession`. -/

/-- The parsed JSON returned by `groq.startInterview`. -/
structure Opening where
  message : String
  currentTopic : Option Topic := none
  deriving Repr, DecidableEq

/-- Outcomes of `POST /start` past the eligibility gate. On upstream failure
the freshly created session stays in the registry (it was stored before the
call) and the caller receives a 500. -/
inductive StartResult
  | upstreamFailure
  | started (sessionId : String) (message : String) (currentTopic : Option Topic)
      (difficultyLevel : Int)
  deriving Repr, DecidableEq

/-- The session-creating tail of the `/start` handler: create and register the
session, read `getDifficultyContext(session.id).currentLevel` (this happens
before the LLM call and is the value echoed as `difficultyLevel`), call the
LLM, append the opening interviewer message and count the first question. -/
def startRoute (reg : Registry) (sessionId courseId courseName : String)
    (selectedTopics : Option (String ⊕ List String)) (topics : List Topic)
    (persona : Option Persona) (role : Option Role)
    (llm : Option Opening) (now : String) : Registry × StartResult :=
  let sess := createInterviewSession sessionId courseId courseName selectedTopics
    topics persona role now
  let reg1 := regSet reg sess.id sess
  let difficultyLevel := getDifficultyLevelS sess
  match llm with
  | none => (reg1, .upstreamFailure)
  | some op =>
    let s1 := addMessageToSessionS sess
      { role := "interviewer", content := op.message, timestamp := now,
        currentTopic := op.currentTopic }
    let s2 := incrementQuestionCountS s1
    (regSet reg1 sess.id s2, .started sess.id op.message op.currentTopic difficultyLevel)

/-! ## Helper lemmas -/

/-- One `updateDifficultyAssessment` call keeps the level in `[1,4]` and the
window at length at most 3. -/
theorem updateTracker_level_window (t : DifficultyTracker) (a now : String)
    (h1 : 1 ≤ t.currentLevel) (h2 : t.currentLevel ≤ 4)
    (h3 : t.recentAssessments.length ≤ 3) :
    1 ≤ (updateTracker t a now).currentLevel ∧
      (updateTracker t a now).currentLevel ≤ 4 ∧
      (updateTracker t a now).recentAssessments.length ≤ 3 := by
  unfold updateTracker
  split
  · exact ⟨h1, h2, h3⟩
  · dsimp only
    split
    · refine ⟨h1, h2, ?_⟩
      dsimp only
      split <;> simp_all [List.length_tail]
    · refine ⟨le_max_left _ _, max_le (by norm_num) (min_le_left _ _), ?_⟩
      simp

/-- If one `updateDifficultyAssessment` call changed the history length (i.e.
performed an adjustment), the window afterwards is empty. -/
theorem updateTracker_adjusted_clears (t : DifficultyTracker) (a now : String)
    (h : (updateTracker t a now).adjustmentHistory.length ≠ t.adjustmentHistory.length) :
    (updateTracker t a now).recentAssessments = [] := by
  unfold updateTracker at h ⊢
  split at h
  next => exact absurd rfl h
  next hc =>
    rw [if_neg hc]
    dsimp only at h ⊢
    split
    next heq => rw [heq] at h; simp at h
    next d r heq => simp

/-- A sequence of `updateDifficultyAssessment` calls on one tracker, given as
(label, timestamp) pairs. -/
def runUpdates (t : DifficultyTracker) (updates : List (String × String)) :
    DifficultyTracker :=
  updates.foldl (fun tr u => updateTracker tr u.1 u.2) t

theorem runUpdates_append (t : DifficultyTracker) (p : List (String × String))
    (u : String × String) :
    runUpdates t (p ++ [u]) = updateTracker (runUpdates t p) u.1 u.2 := by
  simp [runUpdates]

theorem runUpdates_inv (t0 : DifficultyTracker)
    (h1 : 1 ≤ t0.currentLevel) (h2 : t0.currentLevel ≤ 4)
    (h3 : t0.recentAssessments.length ≤ 3) (p : List (String × String)) :
    1 ≤ (runUpdates t0 p).currentLevel ∧ (runUpdates t0 p).currentLevel ≤ 4 ∧
      (runUpdates t0 p).recentAssessments.length ≤ 3 := by
  induction p generalizing t0 with
  | nil => exact ⟨h1, h2, h3⟩
  | cons u rest ih =>
    have step := updateTracker_level_window t0 u.1 u.2 h1 h2 h3
    simpa [runUpdates] using ih (updateTracker t0 u.1 u.2) step.1 step.2.1 step.2.2

/-! ## Claim theorems -/

/-- **C1** Difficulty-tracker invariant: starting from a tracker whose level
is in `[1,4]` with an empty window, after any sequence of
`updateDifficultyAssessment` calls with valid labels the level is in `[1,4]`
and the window has length at most 3 at every point (every prefix of the
sequence), and immediately after any call that performs an adjustment
(detected as a change of the `adjustmentHistory` length) the window is empty. -/
theorem difficulty_tracker_invariant (t0 : DifficultyTracker)
    (hLevelLo : 1 ≤ t0.currentLevel) (hLevelHi : t0.currentLevel ≤ 4)
    (hWindow : t0.recentAssessments = [])
    (updates : List (String × String))
    (_hValid : ∀ u ∈ updates, u.1 ∈ validAssessments) :
    (∀ p, p <+: updates →
      1 ≤ (runUpdates t0 p).currentLevel ∧ (runUpdates t0 p).currentLevel ≤ 4 ∧
        (runUpdates t0 p).recentAssessments.length ≤ 3) ∧
    (∀ p u, p ++ [u] <+: updates →
      (runUpdates t0 (p ++ [u])).adjustmentHistory.length ≠
        (runUpdates t0 p).adjustmentHistory.length →
      (runUpdates t0 (p ++ [u])).recentAssessments = []) := by
  constructor
  · intro p _
    exact runUpdates_inv t0 hLevelLo hLevelHi (by simp [hWindow]) p
  · intro p u _ hAdj
    rw [runUpdates_append] at hAdj ⊢
    exact updateTracker_adjusted_clears _ u.1 u.2 hAdj

/-- A concrete fresh mid-level tracker. -/
def witnessTracker : DifficultyTracker :=
  { currentLevel := 2, recentAssessments := [], adjustmentHistory := [] }

/-- A concrete update sequence of valid labels. -/
def witnessUpdates : List (String × String) :=
  [("excellent", "a"), ("excellent", "b"), ("brief", "c")]

/-- Witness for `difficulty_tracker_invariant` at a concrete tracker and
update sequence. -/
theorem difficulty_tracker_invariant_witness :
    (1 ≤ witnessTracker.currentLevel ∧ witnessTracker.currentLevel ≤ 4 ∧
      witnessTracker.recentAssessments = [] ∧
      ∀ u ∈ witnessUpdates, u.1 ∈ validAssessments) ∧
    ((∀ p, p <+: witnessUpdates →
      1 ≤ (runUpdates witnessTracker p).currentLevel ∧
        (runUpdates witnessTracker p).currentLevel ≤ 4 ∧
        (runUpdates witnessTracker p).recentAssessments.length ≤ 3) ∧
    (∀ p u, p ++ [u] <+: witnessUpdates →
      (runUpdates witnessTracker (p ++ [u])).adjustmentHistory.length ≠
        (runUpdates witnessTracker p).adjustmentHistory.length →
      (runUpdates witnessTracker (p ++ [u])).recentAssessments = [])) :=
  ⟨⟨by decide, by decide, rfl, by decide⟩,
    difficulty_tracker_invariant witnessTracker (by decide) (by decide) rfl
      witnessUpdates (by decide)⟩

/-- **C6** Invalid-label leniency: for every label outside
{excellent, good, partial, brief}, `updateDifficultyAssessment` is an
error-free no-op — the whole session, in particular `currentLevel`,
`recentAssessments` and `adjustmentHistory`, is unchanged. -/
theorem invalid_label_noop (s : Session) (a now : String)
    (h : a ∉ validAssessments) :
    updateDifficultyAssessmentS s a now = s := by
  unfold updateDifficultyAssessmentS updateTracker
  simp [h]

/-- A concrete session used by several witnesses: one topic, no persona, no
role, one interviewer opening message on topic `t1`. -/
def sessionA : Session :=
  addMessageToSessionS
    (createInterviewSession "s1" "c1" "Course One" none [{ id := "t1", name := "Topic One" }]
      none none "ts0")
    { role := "interviewer", content := "q1", timestamp := "ts0",
      currentTopic := some { id := "t1", name := "Topic One" } }

/-- Witness for `invalid_label_noop`: the label `"amazing"` is not recognized
and leaves the concrete session untouched. -/
theorem invalid_label_noop_witness :
    "amazing" ∉ validAssessments ∧
      updateDifficultyAssessmentS sessionA "amazing" "ts1" = sessionA :=
  ⟨by decide, invalid_label_noop sessionA "amazing" "ts1" (by decide)⟩

/-- The reason string recorded on a difficulty increase. -/
def increaseReason : String :=
  "Candidate showing strong performance - increasing difficulty"

/-- The reason string recorded on a difficulty decrease. -/
def decreaseReason : String :=
  "Candidate may need support - decreasing difficulty"

/-- Reference rule (claim wording): number of occurrences of a label in the
window. -/
def countLabel (w : List String) (a : String) : Nat :=
  (w.filter (· == a)).length

/-- Reference rule (claim wording): appending to the window with FIFO
eviction at capacity 3. -/
def refFifoAppend (w : List String) (a : String) : List String :=
  if w.length < 3 then w ++ [a] else w.tail ++ [a]

/-- Reference rule (claim wording): the level increases exactly when the
window holds at least 2 `excellent` labels and the level is below the
ceiling 4. -/
def refIncrease (level : Int) (w : List String) : Bool :=
  countLabel w "excellent" ≥ 2 && level < 4

/-- Reference rule (claim wording): the decrease condition —
`count(brief) ≥ 2` or `count(brief) + count(partial) ≥ 2` — with the floor
guard `level > 1`. -/
def refDecrease (level : Int) (w : List String) : Bool :=
  (countLabel w "brief" ≥ 2 || countLabel w "brief" + countLabel w "partial" ≥ 2) && level > 1

/-- Reference rule (claim wording) for consuming one valid label: FIFO
append; no adjustment with fewer than 2 labels in the window; increase by 1
when the increase rule fires; otherwise decrease by 1 when the decrease
condition holds; on adjustment emit the one history record and clear the
window, otherwise retain the window and emit nothing. -/
def refStep (level : Int) (w : List String) (a : String) (now : String) :
    Int × List String × Option Adjustment :=
  let w1 := refFifoAppend w a
  if w1.length < 2 then (level, w1, none)
  else if refIncrease level w1 then
    (level + 1, [], some { timestamp := now, fromLevel := level, toLevel := level + 1,
                           reason := increaseReason })
  else if refDecrease level w1 then
    (level - 1, [], some { timestamp := now, fromLevel := level, toLevel := level - 1,
                           reason := decreaseReason })
  else (level, w1, none)

/-- `checkDifficultyAdjustment` written as the reference if-chain. -/
theorem check_eq_ref (t1 : DifficultyTracker) :
    checkDifficultyAdjustment t1 =
      if t1.recentAssessments.length < 2 then .noAdjust
      else if refIncrease t1.currentLevel t1.recentAssessments then
        .adjust 1 increaseReason
      else if refDecrease t1.currentLevel t1.recentAssessments then
        .adjust (-1) decreaseReason
      else .noAdjust := rfl

/-- Under the invariant bounds, the code's push-then-shift equals the
reference FIFO append. -/
theorem fifo_eq (w : List String) (a : String) (h : w.length ≤ 3) :
    (if (w ++ [a]).length > 3 then (w ++ [a]).tail else w ++ [a]) = refFifoAppend w a := by
  unfold refFifoAppend
  rcases w with _ | ⟨x, rest⟩
  · simp
  · by_cases hlen : (x :: rest).length < 3
    · rw [if_neg (by simp at hlen ⊢; omega), if_pos hlen]
    · rw [if_pos (by simp at hlen ⊢; omega), if_neg hlen]
      simp

/-- **C2** The adjustment algorithm equals the reference rule: consuming a
valid label appends it with FIFO eviction at capacity 3; no adjustment with
fewer than 2 labels; increase by 1 exactly when the window holds ≥ 2
`excellent` and the level is below 4; otherwise decrease by 1 exactly when
the brief/partial condition holds and the level is above 1; on adjustment one
`{timestamp, fromLevel, toLevel, reason}` record is appended and the window
is cleared, otherwise the window is retained and the history unchanged. -/
theorem adjustment_algorithm_matches_reference (t : DifficultyTracker) (a now : String)
    (hValid : a ∈ validAssessments) (hWin : t.recentAssessments.length ≤ 3)
    (hLo : 1 ≤ t.currentLevel) (hHi : t.currentLevel ≤ 4) :
    (updateTracker t a now).currentLevel =
        (refStep t.currentLevel t.recentAssessments a now).1 ∧
      (updateTracker t a now).recentAssessments =
        (refStep t.currentLevel t.recentAssessments a now).2.1 ∧
      (updateTracker t a now).adjustmentHistory =
        t.adjustmentHistory ++ (refStep t.currentLevel t.recentAssessments a now).2.2.toList := by
  have hb : validAssessments.contains a = true := by simpa using hValid
  have hfifo := fifo_eq t.recentAssessments a hWin
  unfold updateTracker refStep
  rw [hb]
  rw [if_neg (by simp)]
  dsimp only
  rw [hfifo, check_eq_ref]
  dsimp only
  set w1 := refFifoAppend t.recentAssessments a with hw1
  by_cases h2 : w1.length < 2
  · simp [h2]
  · rw [if_neg h2, if_neg h2]
    by_cases hinc : refIncrease t.currentLevel w1
    · have h4 : t.currentLevel < 4 := by
        simp [refIncrease] at hinc
        exact hinc.2
      rw [if_pos hinc, if_pos hinc]
      have hmin : (4 : Int) ⊓ (t.currentLevel + 1) = t.currentLevel + 1 :=
        min_eq_right (by omega)
      have hmax : (1 : Int) ⊔ (t.currentLevel + 1) = t.currentLevel + 1 :=
        max_eq_right (by omega)
      simp [hmin, hmax]
    · rw [if_neg hinc, if_neg hinc]
      by_cases hdec : refDecrease t.currentLevel w1
      · have h1 : 1 < t.currentLevel := by
          simp [refDecrease] at hdec
          exact hdec.2
        rw [if_pos hdec, if_pos hdec]
        have hmin : (4 : Int) ⊓ (t.currentLevel + -1) = t.currentLevel + -1 :=
          min_eq_right (by omega)
        have hmax : (1 : Int) ⊔ (t.currentLevel + -1) = t.currentLevel + -1 :=
          max_eq_right (by omega)
        simp [hmin, hmax]
        omega
      · rw [if_neg hdec, if_neg hdec]
        simp

/-- Witness for `adjustment_algorithm_matches_reference`: the tracker with
window `[excellent]` at level 2 consuming a second `excellent`. -/
theorem adjustment_algorithm_matches_reference_witness :
    ("excellent" ∈ validAssessments ∧
      (["excellent"] : List String).length ≤ 3 ∧ (1 : Int) ≤ 2 ∧ (2 : Int) ≤ 4) ∧
    ((updateTracker ⟨2, ["excellent"], []⟩ "excellent" "ts1").currentLevel =
        (refStep 2 ["excellent"] "excellent" "ts1").1 ∧
      (updateTracker ⟨2, ["excellent"], []⟩ "excellent" "ts1").recentAssessments =
        (refStep 2 ["excellent"] "excellent" "ts1").2.1 ∧
      (updateTracker ⟨2, ["excellent"], []⟩ "excellent" "ts1").adjustmentHistory =
        ([] : List Adjustment) ++ (refStep 2 ["excellent"] "excellent" "ts1").2.2.toList) :=
  ⟨⟨by decide, by decide, by decide, by decide⟩,
    adjustment_algorithm_matches_reference ⟨2, ["excellent"], []⟩ "excellent" "ts1"
      (by decide) (by decide) (by decide) (by decide)⟩

/-- Each window element contributes to at most one of the excellent / brief /
partial counts, so their sum is bounded by the window length. -/
theorem count_three_le_length (w : List String) :
    countLabel w "excellent" + countLabel w "brief" + countLabel w "partial" ≤ w.length := by
  induction w with
  | nil => simp [countLabel]
  | cons x rest ih =>
    simp only [countLabel, List.filter_cons, List.length_cons] at ih ⊢
    by_cases h1 : x = "excellent" <;> by_cases h2 : x = "brief" <;>
      by_cases h3 : x = "partial" <;> simp_all <;> omega

/-- All assessment windows of valid labels with length at most 3 (the
reachable windows: `updateDifficultyAssessment` only appends valid labels and
keeps the window at capacity 3). -/
def allValidWindows : List (List String) :=
  [[]] ++
  validAssessments.map (fun a => [a]) ++
  (validAssessments.flatMap fun a => validAssessments.map fun b => [a, b]) ++
  (validAssessments.flatMap fun a => validAssessments.flatMap fun b =>
    validAssessments.map fun c => [a, b, c])

/-- **C9 counterexample** The claimed window does not exist: no reachable
window (valid labels, length at most 3) satisfies the increase condition
(`count(excellent) ≥ 2`) and the decrease condition (`count(brief) ≥ 2` or
`count(brief)+count(partial) ≥ 2`) simultaneously — checked over the explicit
enumeration of all such windows. -/
theorem no_window_satisfies_both_conditions :
    allValidWindows.all (fun w =>
      !(decide (countLabel w "excellent" ≥ 2) &&
        (decide (countLabel w "brief" ≥ 2) ||
          decide (countLabel w "brief" + countLabel w "partial" ≥ 2)))) = true := by
  decide

/-- **C9 (amended)** In any window of length at most 3 the two conditions are
mutually exclusive — whenever the increase condition holds the decrease
condition fails — and whenever `count(excellent) ≥ 2` with `currentLevel < 4`,
`checkDifficultyAdjustment` returns the increase adjustment, so increase has
priority and the decrease branch can never be reached in its presence. -/
theorem increase_priority_over_decrease (t : DifficultyTracker)
    (hWin : t.recentAssessments.length ≤ 3)
    (hexc : countLabel t.recentAssessments "excellent" ≥ 2)
    (hlt : t.currentLevel < 4) :
    ¬(countLabel t.recentAssessments "brief" ≥ 2 ∨
        countLabel t.recentAssessments "brief" + countLabel t.recentAssessments "partial" ≥ 2) ∧
      checkDifficultyAdjustment t = .adjust 1 increaseReason := by
  have hsum := count_three_le_length t.recentAssessments
  have hlen : ¬(t.recentAssessments.length < 2) := by
    have hle : countLabel t.recentAssessments "excellent" ≤ t.recentAssessments.length :=
      List.length_filter_le _ _
    omega
  constructor
  · intro hdec
    rcases hdec with h1 | h1 <;> omega
  · have hinc : refIncrease t.currentLevel t.recentAssessments = true := by
      simp only [refIncrease, Bool.and_eq_true, decide_eq_true_eq]
      exact ⟨hexc, hlt⟩
    rw [check_eq_ref, if_neg hlen, if_pos hinc]

/-- Witness for `increase_priority_over_decrease` at the concrete window
`[excellent, excellent]`, level 2. -/
theorem increase_priority_over_decrease_witness :
    ((["excellent", "excellent"] : List String).length ≤ 3 ∧
      countLabel ["excellent", "excellent"] "excellent" ≥ 2 ∧ (2 : Int) < 4) ∧
    (¬(countLabel ["excellent", "excellent"] "brief" ≥ 2 ∨
        countLabel ["excellent", "excellent"] "brief" +
          countLabel ["excellent", "excellent"] "partial" ≥ 2) ∧
      checkDifficultyAdjustment ⟨2, ["excellent", "excellent"], []⟩ =
        .adjust 1 increaseReason) :=
  ⟨⟨by decide, by decide, by decide⟩,
    increase_priority_over_decrease ⟨2, ["excellent", "excellent"], []⟩
      (by decide) (by decide) (by decide)⟩

/-- The claim's derivation of the initial difficulty level: the role's
numeric `level` when present, otherwise the `{junior: 1, mid: 2, senior: 3,
lead: 4}` mapping of the `baseLevel` string (2 when unrecognized), otherwise
2 when no role is given. -/
def specInitialLevel (role : Option Role) : Int :=
  match role with
  | none => 2
  | some r =>
    match r.level with
    | some l => l
    | none =>
      match r.baseLevel with
      | some b => (levelMapLookup b).getD 2
      | none => 2

/-- **C8** Initial difficulty derivation: the tracker of a freshly created
session carries exactly the level described by `specInitialLevel`, and the
Start response echoes that level as `difficultyLevel` (no assessments have
been consumed yet). The hypothesis rules out a numeric role level of 0,
which JS truthiness would treat as absent (role levels are 1–4 by the data
model). -/
theorem initial_difficulty_from_role (reg : Registry)
    (sessionId courseId courseName : String)
    (selectedTopics : Option (String ⊕ List String)) (topics : List Topic)
    (persona : Option Persona) (role : Option Role) (op : Opening) (now : String)
    (hLevel : ∀ r l, role = some r → r.level = some l → l ≠ 0) :
    (createInterviewSession sessionId courseId courseName selectedTopics topics
        persona role now).difficultyTracker.currentLevel = specInitialLevel role ∧
      (startRoute reg sessionId courseId courseName selectedTopics topics persona role
          (some op) now).2 =
        .started sessionId op.message op.currentTopic (specInitialLevel role) := by
  have hinit : initialDifficultyLevel role = specInitialLevel role := by
    cases role with
    | none => rfl
    | some r =>
      cases hl : r.level with
      | some l =>
        have hne := hLevel r l rfl hl
        simp [initialDifficultyLevel, specInitialLevel, hl, hne]
      | none =>
        cases hb : r.baseLevel with
        | none => simp [initialDifficultyLevel, specInitialLevel, hl, hb, levelFromBase]
        | some b =>
          by_cases hbe : b = ""
          · subst hbe
            simp [initialDifficultyLevel, specInitialLevel, hl, hb, levelFromBase,
              levelMapLookup]
          · simp [initialDifficultyLevel, specInitialLevel, hl, hb, levelFromBase, hbe]
  constructor
  · simpa [createInterviewSession] using hinit
  · simp only [startRoute, getDifficultyLevelS, createInterviewSession]
    rw [hinit]

/-- A concrete senior role with numeric level 3. -/
def roleSenior : Role :=
  { id := "r1", name := "Senior Engineer", level := some 3 }

/-- Witness for `initial_difficulty_from_role`: a session created with role
level 3 yields tracker level 3 and `difficultyLevel = 3` on the Start
response. -/
theorem initial_difficulty_from_role_witness :
    (∀ r l, some roleSenior = some r → r.level = some l → l ≠ 0) ∧
    ((createInterviewSession "s1" "c1" "Course One" none [] none (some roleSenior)
        "ts0").difficultyTracker.currentLevel = specInitialLevel (some roleSenior) ∧
      (startRoute [] "s1" "c1" "Course One" none [] none (some roleSenior)
          (some { message := "q1" }) "ts0").2 =
        .started "s1" "q1" none (specInitialLevel (some roleSenior))) :=
  ⟨by intro r l hr hl; injection hr with hr; subst hr; simp [roleSenior] at hl; omega,
    initial_difficulty_from_role [] "s1" "c1" "Course One" none [] none (some roleSenior)
      { message := "q1" } "ts0"
      (by intro r l hr hl; injection hr with hr; subst hr; simp [roleSenior] at hl; omega)⟩

/-! ## Registry lemmas -/

theorem regGet_set_self (reg : Registry) (k : String) (v : Session) :
    regGet (regSet reg k v) k = some v := by
  induction reg with
  | nil => simp [regGet, regSet]
  | cons p rest ih =>
    by_cases h : p.1 = k
    · simp [regGet, regSet, h]
    · simp only [regSet, beq_iff_eq, h, if_false]
      simpa [regGet, List.find?_cons, h] using ih

theorem regGet_eq_none_of_not_mem (reg : Registry) (k : String)
    (h : k ∉ reg.map Prod.fst) : regGet reg k = none := by
  unfold regGet
  rw [List.find?_eq_none.mpr]
  · rfl
  · intro p hp
    simp only [beq_iff_eq]
    intro hpk
    exact h (List.mem_map.mpr ⟨p, hp, hpk⟩)

theorem regGet_delete_self (reg : Registry) (k : String)
    (hN : (reg.map Prod.fst).Nodup) : regGet (regDelete reg k) k = none := by
  induction reg with
  | nil => simp [regGet, regDelete]
  | cons p rest ih =>
    simp only [List.map_cons, List.nodup_cons] at hN
    by_cases h : p.1 = k
    · simp only [regDelete, beq_iff_eq, h, if_true]
      exact regGet_eq_none_of_not_mem rest k (h ▸ hN.1)
    · simp only [regDelete, beq_iff_eq, h, if_false]
      simpa [regGet, List.find?_cons, h] using ih hN.2

theorem regGet_delete_ne (reg : Registry) (k k1 : String) (h : k1 ≠ k) :
    regGet (regDelete reg k) k1 = regGet reg k1 := by
  induction reg with
  | nil => simp [regDelete]
  | cons p rest ih =>
    by_cases hp : p.1 = k
    · simp only [regDelete, beq_iff_eq, hp, if_true]
      simp [regGet, List.find?_cons, hp, Ne.symm h]
    · simp only [regDelete, beq_iff_eq, hp, if_false]
      by_cases hp1 : p.1 = k1
      · simp [regGet, List.find?_cons, hp1]
      · simpa [regGet, List.find?_cons, hp1] using ih

/-- The summary object the `/end` route builds for a session (LLM payload
plus the augmentation fields). -/
def mkEndSummary (sess : Session) (payload duration : String) : Summary :=
  { payload := payload
    persona := sess.persona
    targetRole := sess.targetRole
    difficultyTracker := sess.difficultyTracker
    metricsQuestionCount := sess.metrics.questionCount
    metricsSkippedCount := sess.metrics.skippedCount
    metricsDuration := duration }

/-- The session as persisted by `endInterviewSession`. -/
def mkEndedSession (sess : Session) (payload duration now : String) : Session :=
  { sess with
    endTime := some now
    summary := some (mkEndSummary sess payload duration)
    metrics :=
      { questionCount := sess.metrics.questionCount
        skippedCount := sess.metrics.skippedCount
        skipsPerTopic := none } }

/-- Reduction of a successful `/end` call on a live session. -/
theorem endRoute_reduces (st : Store) (sessionId payload duration now : String)
    (sess : Session) (hne : sessionId ≠ "")
    (hGet : regGet st.registry sessionId = some sess) :
    endRoute st sessionId (some payload) duration now =
      ({ registry := regDelete st.registry sessionId
         persistedSessions :=
           (mkEndedSession sess payload duration now :: st.persistedSessions).take 50 },
        .ended (mkEndSummary sess payload duration)) := by
  unfold endRoute endInterviewSessionS mkEndedSession mkEndSummary
  rw [if_neg hne, hGet]

/-- **C7** End is idempotent-unsafe: a first `/end` on a live session id
terminates it — the response is the summary, the persisted head is the
session with `endTime` and `summary` set, the id is evicted from the registry
and no other registry entry is touched — and any second `/end` on the same id
yields `SessionNotFound` and changes nothing. -/
theorem end_twice_session_not_found (st : Store) (sessionId payload duration now : String)
    (sess : Session) (hne : sessionId ≠ "")
    (hNodup : (st.registry.map Prod.fst).Nodup)
    (hGet : regGet st.registry sessionId = some sess) :
    ∃ summary s1,
      (endRoute st sessionId (some payload) duration now).2 = .ended summary ∧
      s1.endTime = some now ∧ s1.summary = some summary ∧
      (endRoute st sessionId (some payload) duration now).1.persistedSessions.head? =
        some s1 ∧
      regGet (endRoute st sessionId (some payload) duration now).1.registry sessionId =
        none ∧
      (∀ k, k ≠ sessionId →
        regGet (endRoute st sessionId (some payload) duration now).1.registry k =
          regGet st.registry k) ∧
      ∀ llm2 dur2 now2,
        endRoute (endRoute st sessionId (some payload) duration now).1 sessionId
            llm2 dur2 now2 =
          ((endRoute st sessionId (some payload) duration now).1, .notFound) := by
  rw [endRoute_reduces st sessionId payload duration now sess hne hGet]
  have hnone : regGet (regDelete st.registry sessionId) sessionId = none :=
    regGet_delete_self _ _ hNodup
  refine ⟨mkEndSummary sess payload duration, mkEndedSession sess payload duration now,
    rfl, rfl, rfl, rfl, hnone, ?_, ?_⟩
  · intro k hk
    exact regGet_delete_ne _ _ _ hk
  · intro llm2 dur2 now2
    unfold endRoute
    rw [if_neg hne, hnone]

/-- A concrete one-session store for the end-route witnesses. -/
def storeA : Store := { registry := [("s1", sessionA)], persistedSessions := [] }

/-- Witness for `end_twice_session_not_found` on the concrete store. -/
theorem end_twice_session_not_found_witness :
    (("s1" : String) ≠ "" ∧ (storeA.registry.map Prod.fst).Nodup ∧
      regGet storeA.registry "s1" = some sessionA) ∧
    (∃ summary s1,
      (endRoute storeA "s1" (some "sum") "0:42" "te").2 = .ended summary ∧
      s1.endTime = some "te" ∧ s1.summary = some summary ∧
      (endRoute storeA "s1" (some "sum") "0:42" "te").1.persistedSessions.head? = some s1 ∧
      regGet (endRoute storeA "s1" (some "sum") "0:42" "te").1.registry "s1" = none ∧
      (∀ k, k ≠ "s1" →
        regGet (endRoute storeA "s1" (some "sum") "0:42" "te").1.registry k =
          regGet storeA.registry k) ∧
      ∀ llm2 dur2 now2,
        endRoute (endRoute storeA "s1" (some "sum") "0:42" "te").1 "s1" llm2 dur2 now2 =
          ((endRoute storeA "s1" (some "sum") "0:42" "te").1, .notFound)) :=
  ⟨⟨by decide, by decide, rfl⟩,
    end_twice_session_not_found storeA "s1" "sum" "0:42" "te" sessionA
      (by decide) (by decide) rfl⟩

/-- **C10** Terminating a session truncates the durable store to the 50 most
recently terminated sessions: after every successful `/end` the persisted
list is the just-terminated session (with `endTime` and `summary` set)
followed by at most the 49 newest previously persisted sessions, so its
length is at most 50 and anything older is dropped. -/
theorem persisted_sessions_truncated (st : Store) (sessionId payload duration now : String)
    (sess : Session) (hne : sessionId ≠ "")
    (hGet : regGet st.registry sessionId = some sess) :
    ∃ s1,
      (endRoute st sessionId (some payload) duration now).1.persistedSessions =
        s1 :: st.persistedSessions.take 49 ∧
      (endRoute st sessionId (some payload) duration now).1.persistedSessions.length ≤ 50 ∧
      (endRoute st sessionId (some payload) duration now).1.persistedSessions.head? =
        some s1 ∧
      s1.endTime = some now ∧ s1.summary.isSome = true := by
  rw [endRoute_reduces st sessionId payload duration now sess hne hGet]
  refine ⟨mkEndedSession sess payload duration now, rfl, ?_, rfl, rfl, rfl⟩
  simp [List.length_take]

/-- Witness for `persisted_sessions_truncated` on the concrete store. -/
theorem persisted_sessions_truncated_witness :
    (("s1" : String) ≠ "" ∧ regGet storeA.registry "s1" = some sessionA) ∧
    (∃ s1,
      (endRoute storeA "s1" (some "sum") "0:42" "te").1.persistedSessions =
        s1 :: storeA.persistedSessions.take 49 ∧
      (endRoute storeA "s1" (some "sum") "0:42" "te").1.persistedSessions.length ≤ 50 ∧
      (endRoute storeA "s1" (some "sum") "0:42" "te").1.persistedSessions.head? = some s1 ∧
      s1.endTime = some "te" ∧ s1.summary.isSome = true) :=
  ⟨⟨by decide, rfl⟩,
    persisted_sessions_truncated storeA "s1" "sum" "0:42" "te" sessionA (by decide) rfl⟩

/-- A failing LLM call in `respondContinue` returns right after the user
message was appended. -/
theorem respondContinue_failure (s : Session) (message : String) (skipped : Bool)
    (now : String) :
    respondContinue s message skipped none now =
      (addMessageToSessionS s
        { role := "user", content := message, timestamp := now, skipped := some skipped },
        .upstreamFailure) := rfl

/-- On a failing LLM call, the state left behind by the session-level respond
turn is the pre-turn session plus the skip bookkeeping (on skipped turns) and
the appended user message — nothing else. -/
theorem respondSession_failure_state (sess : Session) (message : String) (skipped : Bool)
    (now : String)
    (hFail : (respondSession sess message skipped none now).2 = .upstreamFailure) :
    ∃ sessMid,
      (respondSession sess message skipped none now).1 =
        addMessageToSessionS sessMid
          { role := "user", content := message, timestamp := now,
            skipped := some skipped } ∧
      sessMid.difficultyTracker = sess.difficultyTracker ∧
      sessMid.metrics.questionCount = sess.metrics.questionCount ∧
      sessMid.endTime = sess.endTime ∧ sessMid.summary = sess.summary ∧
      sessMid.messages = sess.messages ∧
      (skipped = false → sessMid = sess) ∧
      (skipped = true →
        sessMid.metrics.skippedCount = sess.metrics.skippedCount + 1) := by
  unfold respondSession at hFail ⊢
  cases skipped with
  | false =>
    simp only [Bool.false_eq_true, if_false] at hFail ⊢
    exact ⟨sess, by rw [respondContinue_failure], rfl, rfl, rfl, rfl, rfl,
      fun _ => rfl, by simp⟩
  | true =>
    simp only [if_true] at hFail ⊢
    set sMid := incrementSkippedCountS sess
      ((((sess.messages.reverse.find? fun m => m.role == "interviewer").bind
          Message.metadata).bind MsgMeta.currentTopic).map Topic.id) with hsMid
    by_cases hmax : (getMaxTopicSkipsS sMid).1 ≥ MAX_SKIPS_BEFORE_END
    · rw [if_pos hmax] at hFail
      simp at hFail
    · rw [if_neg hmax] at hFail ⊢
      refine ⟨sMid, by rw [respondContinue_failure], ?_, ?_, ?_, ?_, ?_, by simp, ?_⟩
      all_goals simp [hsMid, incrementSkippedCountS]

/-- **C3 counterexample** The Respond turn is not atomic on upstream failure:
on the concrete session, a turn whose LLM call fails still leaves the session
changed (the user message was appended before the call), contradicting
"the session state is exactly what it was before the turn began". -/
theorem respond_failure_not_atomic_cex :
    (respondSession sessionA "hello" false none "ts1").2 = .upstreamFailure ∧
      (respondSession sessionA "hello" false none "ts1").1 ≠ sessionA := by
  decide

/-- **C3 (amended)** On upstream failure of a Respond turn, no mutation
*after* the suspension point is applied — the difficulty tracker,
`questionCount`, `endTime` and `summary` are unchanged and the session stays
in the registry (Active) — but the mutations placed *before* the LLM call
have already happened: the user message is on the transcript and, on a
skipped turn, `skippedCount` (with the per-topic bookkeeping) was already
incremented; a non-skipped failing turn leaves the metrics object untouched. -/
theorem respond_upstream_failure_partial_state (reg : Registry)
    (sessionId message : String) (skipped : Bool) (now : String) (sess : Session)
    (hGet : regGet reg sessionId = some sess)
    (hFail : (respondRoute reg sessionId message skipped none now).2 = .upstreamFailure) :
    ∃ sess1,
      regGet (respondRoute reg sessionId message skipped none now).1 sessionId =
        some sess1 ∧
      sess1.difficultyTracker = sess.difficultyTracker ∧
      sess1.metrics.questionCount = sess.metrics.questionCount ∧
      sess1.endTime = sess.endTime ∧
      sess1.summary = sess.summary ∧
      sess1.messages = sess.messages ++
        [{ role := "user", content := message, timestamp := now,
           skipped := some skipped }] ∧
      (skipped = false → sess1.metrics = sess.metrics) ∧
      (skipped = true →
        sess1.metrics.skippedCount = sess.metrics.skippedCount + 1) := by
  unfold respondRoute at hFail ⊢
  by_cases hbad : sessionId = "" ∨ message = ""
  · rw [if_pos hbad] at hFail
    simp at hFail
  · rw [if_neg hbad] at hFail ⊢
    rw [hGet] at hFail ⊢
    obtain ⟨sessMid, hstate, htr, hqc, het, hsu, hmsg, hfalse, htrue⟩ :=
      respondSession_failure_state sess message skipped now hFail
    refine ⟨(respondSession sess message skipped none now).1,
      regGet_set_self _ _ _, ?_, ?_, ?_, ?_, ?_, ?_, ?_⟩ <;>
      rw [hstate] <;> simp [addMessageToSessionS, htr, hqc, het, hsu, hmsg]
    · intro h
      rw [hfalse h]
    · exact htrue

/-- Witness for `respond_upstream_failure_partial_state` on the concrete
one-session registry. -/
theorem respond_upstream_failure_partial_state_witness :
    (regGet [("s1", sessionA)] "s1" = some sessionA ∧
      (respondRoute [("s1", sessionA)] "s1" "hello" false none "ts1").2 =
        .upstreamFailure) ∧
    (∃ sess1,
      regGet (respondRoute [("s1", sessionA)] "s1" "hello" false none "ts1").1 "s1" =
        some sess1 ∧
      sess1.difficultyTracker = sessionA.difficultyTracker ∧
      sess1.metrics.questionCount = sessionA.metrics.questionCount ∧
      sess1.endTime = sessionA.endTime ∧
      sess1.summary = sessionA.summary ∧
      sess1.messages = sessionA.messages ++
        [{ role := "user", content := "hello", timestamp := "ts1",
           skipped := some false }] ∧
      (false = false → sess1.metrics = sessionA.metrics) ∧
      (false = true →
        sess1.metrics.skippedCount = sessionA.metrics.skippedCount + 1)) :=
  ⟨⟨rfl, rfl⟩,
    respond_upstream_failure_partial_state [("s1", sessionA)] "s1" "hello" false "ts1"
      sessionA rfl rfl⟩

/-- Recognizer for the auto-terminate result. -/
def RespondResult.isAutoEnd : RespondResult → Bool
  | .autoEnd _ _ _ => true
  | _ => false

/-- Well-formedness facts every reachable session satisfies: stored messages
never carry a `metadata` key (`addMessageToSession` spreads the metadata keys
flat), and the per-topic skip map is absent or empty (the respond route's
`currentTopicId` lookup always yields `null`, so no entry is ever created). -/
def sessionWF (s : Session) : Prop :=
  (∀ m ∈ s.messages, m.metadata = none) ∧
    (s.metrics.skipsPerTopic = none ∨ s.metrics.skipsPerTopic = some [])

/-- The respond route's `lastInterviewerMsg?.metadata?.currentTopic?.id`
resolves to `null` whenever no stored message has a `metadata` key. -/
theorem find_interviewer_metadata_none (s : Session)
    (hMeta : ∀ m ∈ s.messages, m.metadata = none) :
    ((((s.messages.reverse.find? fun m => m.role == "interviewer").bind
        Message.metadata).bind MsgMeta.currentTopic).map Topic.id) = none := by
  cases hfind : s.messages.reverse.find? (fun m => m.role == "interviewer") with
  | none => rfl
  | some m =>
    have hm : m ∈ s.messages.reverse := List.mem_of_find?_eq_some hfind
    have hnone := hMeta m (List.mem_reverse.mp hm)
    simp [hnone]

theorem respondContinue_preserves_wf (s : Session) (message : String) (skipped : Bool)
    (llm : Option LLMTurn) (now : String) (hwf : sessionWF s) :
    sessionWF (respondContinue s message skipped llm now).1 ∧
      (respondContinue s message skipped llm now).2.isAutoEnd = false := by
  obtain ⟨hMeta, hSkips⟩ := hwf
  unfold respondContinue
  cases llm with
  | none =>
    refine ⟨⟨?_, hSkips⟩, rfl⟩
    intro m hm
    simp [addMessageToSessionS] at hm
    rcases hm with hm | hm
    · exact hMeta m hm
    · subst hm; rfl
  | some r =>
    dsimp only
    split <;> split <;>
      refine ⟨⟨?_, by simpa [addMessageToSessionS, updateDifficultyAssessmentS,
          incrementQuestionCountS] using hSkips⟩, rfl⟩ <;>
      · intro m hm
        simp only [addMessageToSessionS, updateDifficultyAssessmentS,
          incrementQuestionCountS, List.mem_append, List.mem_singleton] at hm
        rcases hm with (hm | rfl) | rfl
        · exact hMeta m hm
        · rfl
        · rfl

theorem respondSession_preserves_wf (sess : Session) (message : String) (skipped : Bool)
    (llm : Option LLMTurn) (now : String) (hwf : sessionWF sess) :
    sessionWF (respondSession sess message skipped llm now).1 ∧
      (respondSession sess message skipped llm now).2.isAutoEnd = false := by
  unfold respondSession
  cases skipped with
  | false =>
    simp only [Bool.false_eq_true, if_false]
    exact respondContinue_preserves_wf sess message false llm now hwf
  | true =>
    simp only [if_true]
    obtain ⟨hMeta, hSkips⟩ := hwf
    rw [find_interviewer_metadata_none sess hMeta]
    have hmap : (incrementSkippedCountS sess none).metrics.skipsPerTopic = some [] := by
      rcases hSkips with h | h <;> simp [incrementSkippedCountS, h]
    have hmax : getMaxTopicSkipsS (incrementSkippedCountS sess none) = (0, none) := by
      simp [getMaxTopicSkipsS, hmap]
    rw [if_neg (by simp [hmax, MAX_SKIPS_BEFORE_END])]
    exact respondContinue_preserves_wf _ message true llm now
      ⟨by simpa [incrementSkippedCountS] using hMeta, Or.inr hmap⟩

/-- One skipped Respond turn where the interviewer keeps asking on topic `t1`. -/
def skipOnce (s : Session) (q ts : String) : Session × RespondResult :=
  respondSession s "I would rather skip this" true
    (some { message := q, currentTopic := some { id := "t1", name := "Topic One" } }) ts

/-- First skipped turn on `sessionA` (whose last interviewer message is on
topic `t1`). -/
def skipRun1 : Session × RespondResult := skipOnce sessionA "q2" "ts1"

/-- Second consecutive skipped turn on the same topic. -/
def skipRun2 : Session × RespondResult := skipOnce skipRun1.1 "q3" "ts2"

/-- Third consecutive skipped turn on the same topic. -/
def skipRun3 : Session × RespondResult := skipOnce skipRun2.1 "q4" "ts3"

/-- **C4 (code bug)** Three consecutive skips on the same topic `t1` (the
topic of the most recent interviewer message every time) never increment the
per-topic skip counter and never yield the auto-terminate signal: the global
`skippedCount` reaches 3 but `skipsPerTopic` stays empty and
`getMaxTopicSkips` stays `{maxSkips: 0, topicId: null}`, because the route
reads `lastInterviewerMsg?.metadata?.currentTopic?.id` while
`addMessageToSession` stores `currentTopic` at the top level of the message
object (no `metadata` key ever exists), so `currentTopicId` is always `null`. -/
theorem topic_skip_limit_never_fires :
    skipRun1.1.metrics.skippedCount = 1 ∧
      skipRun2.1.metrics.skippedCount = 2 ∧
      skipRun3.1.metrics.skippedCount = 3 ∧
      skipRun3.1.metrics.skipsPerTopic = some [] ∧
      getMaxTopicSkipsS skipRun3.1 = (0, none) ∧
      skipRun1.2.isAutoEnd = false ∧
      skipRun2.2.isAutoEnd = false ∧
      skipRun3.2.isAutoEnd = false := by
  decide

/-- The interviewer transcript entry appended at the end of a successful
respond turn. -/
def interviewerEntry (r : LLMTurn) (now : String) : Message :=
  { role := "interviewer", content := r.message, timestamp := now,
    currentTopic := r.currentTopic,
    assessmentOfLastAnswer := r.assessmentOfLastAnswer,
    isProbing := r.isProbing }

/-- The respond core after the skip bookkeeping appends the user message
first, whatever the LLM outcome. -/
theorem respondContinue_messages (s : Session) (message : String) (skipped : Bool)
    (llm : Option LLMTurn) (now : String) :
    ∃ rest,
      (respondContinue s message skipped llm now).1.messages =
        s.messages ++
          ({ role := "user", content := message, timestamp := now,
             skipped := some skipped } : Message) :: rest := by
  unfold respondContinue
  cases llm with
  | none => exact ⟨[], by simp [addMessageToSessionS]⟩
  | some r =>
    dsimp only
    split <;> split <;>
      exact ⟨[interviewerEntry r now],
        by simp [interviewerEntry, addMessageToSessionS, updateDifficultyAssessmentS,
          incrementQuestionCountS]⟩

/-- **C5** For every Respond turn on a session whose per-topic skip map is
empty — an invariant of every reachable session, preserved by
`respondSession_preserves_wf` — the user's message is appended to the
transcript directly after the previous messages, whether or not the turn is
skipped and whatever the LLM outcome. (No reachable turn yields the
auto-terminate signal, so the claim's "including auto-terminate turns" is
covered vacuously.) -/
theorem respond_appends_user_message (sess : Session) (message : String) (skipped : Bool)
    (llm : Option LLMTurn) (now : String)
    (hSkips : sess.metrics.skipsPerTopic = none ∨ sess.metrics.skipsPerTopic = some []) :
    ∃ rest,
      (respondSession sess message skipped llm now).1.messages =
        sess.messages ++
          ({ role := "user", content := message, timestamp := now,
             skipped := some skipped } : Message) :: rest := by
  unfold respondSession
  cases skipped with
  | false =>
    simp only [Bool.false_eq_true, if_false]
    exact respondContinue_messages sess message false llm now
  | true =>
    simp only [if_true]
    generalize (((( sess.messages.reverse.find? fun m => m.role == "interviewer").bind
        Message.metadata).bind MsgMeta.currentTopic).map Topic.id) = tid
    have hmax : (getMaxTopicSkipsS (incrementSkippedCountS sess tid)).1 < 3 := by
      rcases hSkips with h | h <;> cases tid <;>
        simp [incrementSkippedCountS, getMaxTopicSkipsS, assocSet, assocGet, h]
    rw [if_neg (by simp only [MAX_SKIPS_BEFORE_END]; omega)]
    have hm := respondContinue_messages (incrementSkippedCountS sess tid) message true llm now
    simpa [incrementSkippedCountS] using hm

/-- Witness for `respond_appends_user_message` on the concrete session. -/
theorem respond_appends_user_message_witness :
    (sessionA.metrics.skipsPerTopic = none ∨ sessionA.metrics.skipsPerTopic = some []) ∧
    (∃ rest,
      (respondSession sessionA "my answer" false
          (some { message := "q2", assessmentOfLastAnswer := some "good" }) "ts1").1.messages =
        sessionA.messages ++
          ({ role := "user", content := "my answer", timestamp := "ts1",
             skipped := some false } : Message) :: rest) :=
  ⟨Or.inl rfl,
    respond_appends_user_message sessionA "my answer" false
      (some { message := "q2", assessmentOfLastAnswer := some "good" }) "ts1" (Or.inl rfl)⟩
